import Mathlib

/-!
Verification of the imagor request-lifecycle engine (`imagor.go`) and the
vips pipeline decision engine (`processor/vipsprocessor/vips.go`).

The Go code is shallowly embedded: stateful request handling becomes
explicit state passing; the observable side effects (loader attempts,
storage saves, processor invocations) are recorded in an explicit event
trace; fallible calls return `Option Err`.  Collaborator types that live
outside the two embedded files (the `File` blob, the error taxonomy, the
`imagorpath.Params` bundle) are modelled from the specification, as noted
on each definition.
-/

namespace Imagor

/-- Modelled from the spec: Blob metadata record (format, content-type,
width, height, orientation) carried by a `File` (spec §3). -/
structure Meta where
  format : String
  contentType : String
  width : Int
  height : Int
  orientation : Int
deriving DecidableEq, Repr

/-- Modelled from the spec: a `File` (Blob) is an immutable byte payload
with optional `Meta` (spec §3, §4.2).  A Go `*File` is `Option File`,
`none` standing for the nil pointer. -/
structure File where
  bytes : List Nat
  meta : Option Meta
deriving DecidableEq, Repr

/-- Modelled from the spec: the `is_empty` probe (spec §3, §4.2): a nil
file or one with no bytes is empty. -/
def IsFileEmpty : Option File → Bool
  | none => true
  | some f => f.bytes.isEmpty

/-- Modelled from the spec: the error taxonomy (spec §7) plus the two
context errors of the Go runtime (`context.Canceled`,
`context.DeadlineExceeded`) that `Do` and `load` test for. -/
inductive Err where
  | pass
  | notFound
  | signatureMismatch
  | unsupportedFormat
  | timeout
  | internal
  | canceled
  | deadlineExceeded
deriving DecidableEq, Repr

/-- Modelled from the spec: the HTTP code each error kind carries
(spec §7): 404, 403, 406, 408, 500.  `pass` is an internal sentinel that
is rewritten before any code is read; the context errors are normalised
by `wrapError` before their code is read. -/
def errCode : Err → Nat
  | .pass => 404
  | .notFound => 404
  | .signatureMismatch => 403
  | .unsupportedFormat => 406
  | .timeout => 408
  | .internal => 500
  | .canceled => 500
  | .deadlineExceeded => 408

/-- Modelled from the spec: `WrapError` normalises any error to a kinded
error before the HTTP status is taken (spec §4.8 step 8, §7): kinded
errors pass through, deadline expiry becomes `Timeout`, anything else
falls through to `Internal`. -/
def wrapError : Err → Err
  | .deadlineExceeded => .timeout
  | .canceled => .internal
  | e => e

/-- One `(name, args)` filter pair of the URL (spec §3). -/
structure Filter where
  name : String
  args : String
deriving DecidableEq, Repr

/-- Modelled from the spec: the parsed `imagorpath.Params` bundle
(spec §3).  `unsigned` models the URL's `Unsafe` flag; `allowUnsigned`
on `App` models the server's `Unsafe` option. -/
structure Params where
  path : String
  image : String
  hash : String
  unsigned : Bool
  meta : Bool
  trim : Bool
  cropTop : Int
  cropLeft : Int
  cropBottom : Int
  cropRight : Int
  fitIn : Bool
  stretch : Bool
  smart : Bool
  width : Int
  height : Int
  vAlign : String
  hAlign : String
  filters : List Filter
deriving DecidableEq, Repr

/-- A parameter bundle with every field at its zero value. -/
def Params.default : Params :=
  { path := "", image := "", hash := "", unsigned := false, meta := false
    trim := false, cropTop := 0, cropLeft := 0, cropBottom := 0, cropRight := 0
    fitIn := false, stretch := false, smart := false, width := 0, height := 0
    vAlign := "", hAlign := "", filters := [] }

/-- One configured loader: its `Load` behaviour as a function of the key,
whether the Go type assertion `loader.(Store)` succeeds, and an identity
used for the interface identity comparison `storage == origin`. -/
structure LoaderB where
  load : String → Option File × Option Err
  isStore : Bool
  id : Nat

/-- One processor's `Process` behaviour as a function of its input file. -/
def ProcB := Option File → Option File × Option Err

/-- The `Imagor` handler state: configuration plus collaborator
behaviours (loaders, storages, processors).  Storages are identified by
the same identity space as loaders so that the interface identity
comparison `storage == origin` of `save` is expressible. -/
structure App where
  allowUnsigned : Bool
  secret : String
  loaders : List LoaderB
  storages : List Nat
  resultLoaders : List LoaderB
  resultStorages : List Nat
  processors : List ProcB
  saveTimeout : Int

/-- The request context: which single-flight keys the context already
holds (the `acquireKey` context values), and whether it is done. -/
structure Ctx where
  acquired : List String
  done : Bool

/-- Go `ctx.Value(acquireKey\x7bkey\x7d).(bool)` yields `true`. -/
def ctxHolds (ctx : Ctx) (key : String) : Bool :=
  ctx.acquired.contains key

/-- Go `context.WithValue(ctx, acquireKey\x7bkey\x7d, true)`. -/
def withAcquired (ctx : Ctx) (key : String) : Ctx :=
  { ctx with acquired := key :: ctx.acquired }

/-- An observable side effect of one request. -/
inductive Event where
  | load (loaderId : Nat) (key : String)
  | save (storageId : Nat) (key : String) (file : Option File)
  | process (idx : Nat)
deriving DecidableEq, Repr

/-- One `storage.Save(ctx, key, file)` call issued by the fan-out. -/
structure SaveCall where
  id : Nat
  key : String
  file : Option File
deriving DecidableEq, Repr

/-- The goroutines `save` launches, in loop order: one `Save(key, file)`
per configured storage except any identity-equal to `origin`
(imagor.go:310-327). -/
def saveCalls (origin : Option Nat) (key : String) (file : Option File) :
    List Nat → List SaveCall
  | [] => []
  | s :: rest =>
    if some s = origin then
      -- loaded from the same store, no need save again
      saveCalls origin key file rest
    else
      ⟨s, key, file⟩ :: saveCalls origin key file rest

/-- Model of `Imagor.save` (imagor.go:301-330): fans the file out to every
non-origin storage and waits for all writes.  The local `cancel` is only
assigned when `SaveTimeout > 0`, yet `defer cancel()` runs
unconditionally, so after the writes complete the deferred call invokes
a nil function and panics; the second component records that panic. -/
def save (saveTimeout : Int) (origin : Option Nat) (storages : List Nat)
    (key : String) (file : Option File) : List SaveCall × Bool :=
  (saveCalls origin key file storages, !(saveTimeout > 0 : Bool))

end Imagor

namespace Imagor

theorem saveCalls_skip_example :
    saveCalls (some 2) "k" none [1, 2, 3] = [⟨1, "k", none⟩, ⟨3, "k", none⟩] := by
  decide

/-- Go `strings.TrimPrefix(p.Path, "meta/")` (imagor.go:180): the result key
is the path with a leading `meta/` stripped. -/
def stripMeta (path : String) : String :=
  match path.data with
  | 'm' :: 'e' :: 't' :: 'a' :: '/' :: rest => ⟨rest⟩
  | _ => path

theorem stripMeta_example : stripMeta "meta/x" = "x" ∧ stripMeta "x/y" = "x/y" := by
  decide

/-- Result of one pass through the loader chain: the retained file, the
winning loader as a `Store` (when it is one), the folded error, and the
loaders attempted in order. -/
structure LoadOut where
  file : Option File
  origin : Option Nat
  err : Option Err
  events : List Event
deriving DecidableEq, Repr

/-- The loader loop of `Imagor.load` (imagor.go:269-286): each loader is
attempted in order; a non-empty blob overwrites the retained file; a nil
error clears the folded error, records the loader as origin (when the
`loader.(Store)` assertion succeeds) and breaks; otherwise the error is
folded and iteration continues. -/
def loadLoop (key : String) : List LoaderB → Option File → Option Err → LoadOut
  | [], file, err => ⟨file, none, err, []⟩
  | l :: rest, file, _err =>
    let (f, e) := l.load key
    let file' := if IsFileEmpty f then file else f
    match e with
    | none => ⟨file', if l.isStore then some l.id else none, none, [.load l.id key]⟩
    | some e' =>
      let out := loadLoop key rest file' (some e')
      ⟨out.file, out.origin, out.err, .load l.id key :: out.events⟩

/-- Model of `Imagor.load` (imagor.go:257-299): run the loader loop, then rewrite
a trailing `Pass` to `NotFound` (imagor.go:291-294). -/
def load (loaders : List LoaderB) (key : String) : LoadOut :=
  let out := loadLoop key loaders none none
  let err := match out.err with
    | some .pass => some .notFound
    | e => e
  ⟨out.file, out.origin, err, out.events⟩

/-- Model of `Imagor.loadResult` (imagor.go:249-255): nothing when no result
loaders are configured, else one pass of `load` over them, dropping the
origin. -/
def loadResult (app : App) (key : String) : Option File × Option Err × List Event :=
  if app.resultLoaders.isEmpty then (none, none, [])
  else
    (((load app.resultLoaders key).file, (load app.resultLoaders key).err,
      (load app.resultLoaders key).events))

/-- Outcome of one stage of `Do`: result file, error, recorded events,
and whether the stage panicked (via `save`'s nil `cancel`). -/
structure StageOut where
  file : Option File
  err : Option Err
  events : List Event
  panicked : Bool
deriving DecidableEq, Repr

/-- Model of `Imagor.acquire` (imagor.go:336-360).  When the context already
holds the key, deduplication is bypassed and `fn` runs on the context
unchanged (imagor.go:343-346).  Otherwise the single-flight computation
runs `fn` on the context tagged with the key; the `select` racing the
result channel against `ctx.Done()` is determinised here to the done
branch when the context is already done (the shared computation still
runs, so its events are kept). -/
def acquire (ctx : Ctx) (key : String) (fn : Ctx → StageOut) : StageOut :=
  if ctxHolds ctx key then
    fn ctx
  else
    let res := fn (withAcquired ctx key)
    if ctx.done then
      { file := none, err := some .canceled, events := res.events, panicked := res.panicked }
    else res

/-- Model of `Imagor.loadStore` (imagor.go:234-247): under the `img:`-keyed
single flight, load from the source loaders; when the file is non-empty
and source storages are configured, fan out the write-back, skipping the
origin. -/
def loadStore (app : App) (ctx : Ctx) (key : String) : StageOut :=
  acquire ctx ("img:" ++ key) fun _ =>
    let out := load app.loaders key
    if IsFileEmpty out.file then
      { file := out.file, err := out.err, events := out.events, panicked := false }
    else if app.storages.length > 0 then
      let sv := save app.saveTimeout out.origin app.storages key out.file
      { file := out.file, err := out.err
        events := out.events ++ sv.1.map (fun c => .save c.id c.key c.file)
        panicked := sv.2 }
    else
      { file := out.file, err := out.err, events := out.events, panicked := false }

/-- The processor loop of `Do` (imagor.go:200-226): on success adopt the
output and break with a nil error; on `Pass` adopt a non-empty
intermediate blob and continue, leaving the folded error unchanged; on a
deadline-exceeded error break; on any other error fold it and
continue. -/
def procLoop : List ProcB → Nat → Option File → Option Err →
    Option File × Option Err × List Event
  | [], _, file, err => (file, err, [])
  | proc :: rest, i, file, err =>
    let (f, e) := proc file
    match e with
    | none => (f, none, [.process i])
    | some .pass =>
      let file' := if IsFileEmpty f then file else f
      let out := procLoop rest (i + 1) file' err
      (out.1, out.2.1, .process i :: out.2.2)
    | some .deadlineExceeded =>
      (file, some .deadlineExceeded, [.process i])
    | some e' =>
      let out := procLoop rest (i + 1) file (some e')
      (out.1, out.2.1, .process i :: out.2.2)

/-- The tail of `Do`'s single-flight closure (imagor.go:200-230): run
the processor loop on the loaded file, then, exactly when the folded
error is nil and result storages are configured, fan the final file out
to the result storages with no origin. -/
def processAndStore (app : App) (resultKey : String) (file0 : Option File) : StageOut :=
  let out := procLoop app.processors 0 file0 none
  if out.2.1 = none ∧ app.resultStorages.length > 0 then
    let sv := save app.saveTimeout none app.resultStorages resultKey out.1
    { file := out.1, err := out.2.1
      events := out.2.2 ++ sv.1.map (fun c => .save c.id c.key c.file)
      panicked := sv.2 }
  else
    { file := out.1, err := out.2.1, events := out.2.2, panicked := false }

/-- The closure `Do` passes to its `res:`-keyed `acquire`
(imagor.go:184-231): result-loader hit short-circuits; else load (and
write back) the source; an error or empty file returns early; else
process and store. -/
def doResFn (app : App) (p : Params) (resultKey : String) (ctx : Ctx) : StageOut :=
  let r := loadResult app resultKey
  if r.2.1 = none ∧ IsFileEmpty r.1 = false then
    { file := r.1, err := r.2.1, events := r.2.2, panicked := false }
  else
    let ls := loadStore app ctx p.image
    if ls.panicked then
      { file := ls.file, err := ls.err, events := r.2.2 ++ ls.events, panicked := true }
    else if ls.err ≠ none then
      { file := ls.file, err := ls.err, events := r.2.2 ++ ls.events, panicked := false }
    else if IsFileEmpty ls.file then
      { file := ls.file, err := ls.err, events := r.2.2 ++ ls.events, panicked := false }
    else
      let ps := processAndStore app resultKey ls.file
      { file := ps.file, err := ps.err
        events := r.2.2 ++ ls.events ++ ps.events
        panicked := ps.panicked }

/-- Model of `Imagor.Do` (imagor.go:165-232): authentication first — proceed only
when `(app.Unsafe && p.Unsafe)` holds or the signature matches
(imagor.go:173-179) — then the `res:`-keyed single flight over the
result key. -/
def Do (app : App) (sgn : String → String → String) (ctx : Ctx) (p : Params) : StageOut :=
  if (app.allowUnsigned && p.unsigned) = false ∧ sgn p.path app.secret ≠ p.hash then
    { file := none, err := some .signatureMismatch, events := [], panicked := false }
  else
    acquire ctx ("res:" ++ stripMeta p.path) (doResFn app p (stripMeta p.path))

/-- The response `ServeHTTP` writes, reduced to its observables: status
code, body length, and whether the body is a JSON document (error or
meta) rather than image bytes. -/
structure HttpResponse where
  status : Nat
  bodyLen : Nat
  isJson : Bool
deriving DecidableEq, Repr

/-- Length of a file's bytes; 0 for the nil file. -/
def fileLen : Option File → Nat
  | none => 0
  | some f => f.bytes.length

/-- The file's `Meta`; none for the nil file. -/
def fileMeta : Option File → Option Meta
  | none => none
  | some f => f.meta

/-- The response shaping of `ServeHTTP` after `Do` returns
(imagor.go:122-161): a non-empty file with `Meta` under a `meta/`
request answers the meta JSON; an error is normalised (`Pass` rewritten
to `NotFound`, imagor.go:141-144) and its code written, with the body
bytes when present, else the error JSON; otherwise a 200 with the body
and its length. -/
def serveResponse (metaReq : Bool) (file : Option File) (err : Option Err) : HttpResponse :=
  let ln := if IsFileEmpty file then 0 else fileLen file
  if IsFileEmpty file = false ∧ fileMeta file ≠ none ∧ metaReq = true then
    { status := 200, bodyLen := 0, isJson := true }
  else
    match err with
    | some e0 =>
      let e1 := wrapError e0
      let e2 := if e1 = .pass then .notFound else e1
      if ln > 0 then { status := errCode e2, bodyLen := ln, isJson := false }
      else { status := errCode e2, bodyLen := 0, isJson := true }
    | none => { status := 200, bodyLen := ln, isJson := false }

end Imagor

namespace VipsProcessor

open Imagor

/-- The `vips.ImageType` values named by the processor (vips.go usage). -/
inductive ImageType where
  | unknown
  | gif
  | jpeg
  | magick
  | pdf
  | png
  | svg
  | tiff
  | webp
  | heif
  | bmp
  | avif
  | jp2k
deriving DecidableEq, Repr

/-- Model of `imageTypeMap` (vips.go:397-411): the format names the `format=`
filter recognises. -/
def imageTypeMap : String → Option ImageType
  | "gif" => some .gif
  | "jpeg" => some .jpeg
  | "jpg" => some .jpeg
  | "magick" => some .magick
  | "pdf" => some .pdf
  | "png" => some .png
  | "svg" => some .svg
  | "tiff" => some .tiff
  | "webp" => some .webp
  | "heif" => some .heif
  | "bmp" => some .bmp
  | "avif" => some .avif
  | "jp2" => some .jp2k
  | _ => none

/-- Model of `vips.Interesting`: the region-of-interest policy of a thumbnail. -/
inductive Interesting where
  | none
  | low
  | high
  | centre
  | attention
deriving DecidableEq, Repr

/-- Model of `vips.Size`: the scaling mode of a thumbnail. -/
inductive SizeMode where
  | both
  | down
  | force
deriving DecidableEq, Repr

/-- The flags `Process` accumulates while scanning the filters
(vips.go:204-254). -/
structure ScanState where
  special : Bool
  upscale : Bool
  stretch : Bool
  format : ImageType
  maxN : Int
deriving DecidableEq, Repr

/-- Go `strings.Split(args, ",")[0]`: the argument text before the first
comma, the whole text when there is none. -/
def firstSplitArg (args : String) : String :=
  ⟨args.data.takeWhile (fun c => c != ',')⟩

/-- One step of the filter scan of `Process` (vips.go:225-254). -/
def scanFilter (st : ScanState) (f : Filter) : ScanState :=
  match f.name with
  | "format" =>
    match imageTypeMap f.args with
    | some typ =>
      { st with format := typ
                maxN := if typ ≠ .gif ∧ typ ≠ .webp then 1 else st.maxN }
    | none => st
  | "stretch" => { st with stretch := true }
  | "upscale" => { st with upscale := true }
  | "no_upscale" => { st with upscale := false }
  | "fill" => if firstSplitArg f.args = "auto" then { st with special := true } else st
  | "background_color" => if firstSplitArg f.args = "auto" then { st with special := true } else st
  | "trim" => { st with special := true }
  | _ => st

/-- The processor configuration fields the decision engine reads. -/
structure VipsCfg where
  maxWidth : Int
  maxHeight : Int
  maxAnimationFrames : Int
deriving DecidableEq, Repr

/-- The configuration `New` builds with no options (vips.go:34-42). -/
def VipsCfg.default : VipsCfg :=
  { maxWidth := 9999, maxHeight := 9999, maxAnimationFrames := -1 }

/-- The flag state entering the filter scan (vips.go:204-224):
`special` starts at `p.Trim`, `upscale` at true but cleared by `fit_in`,
`stretch` at `p.Stretch`, and `maxN` at the configured frame ceiling
with 0 and values below −1 normalised to 1. -/
def initScan (v : VipsCfg) (p : Params) : ScanState :=
  { special := p.trim
    upscale := if p.fitIn then false else true
    stretch := p.stretch
    format := .unknown
    maxN := if v.maxAnimationFrames = 0 ∨ v.maxAnimationFrames < -1 then 1
            else v.maxAnimationFrames }

/-- The flag state after the filter scan of `Process`. -/
def scannedState (v : VipsCfg) (p : Params) : ScanState :=
  p.filters.foldl scanFilter (initScan v p)

/-- How `Process` first materialises the image (vips.go:255-348):
either a shrink-on-load `newThumbnail` with explicit geometry, interest,
size and frame hint, or a full `newImage` decode (the `special` path). -/
inductive Strategy where
  | thumb (w h : Int) (interest : Interesting) (size : SizeMode) (n : Int)
  | image (n : Int)
deriving DecidableEq, Repr

/-- The branch selection of `Process` (vips.go:255-348) as a decision
function: which load strategy the engine picks for given parameters.
Every branch that does not set the `thumbnail` flag falls through to the
tail of `Process` (vips.go:334-348): full decode when `special`, else
the bounding `MaxWidth × MaxHeight` size-down thumbnail. -/
def processStrategy (v : VipsCfg) (p : Params) : Strategy :=
  let st := scannedState v p
  let fallback : Strategy :=
    if st.special then .image st.maxN
    else .thumb v.maxWidth v.maxHeight .none .down st.maxN
  if st.special = false ∧ p.cropBottom = 0 ∧ p.cropTop = 0 ∧
      p.cropLeft = 0 ∧ p.cropRight = 0 then
    if p.fitIn then
      if p.width > 0 ∨ p.height > 0 then
        let w := if p.width = 0 then v.maxWidth else p.width
        let h := if p.height = 0 then v.maxHeight else p.height
        let size := if st.upscale then SizeMode.both else SizeMode.down
        .thumb w h .none size st.maxN
      else fallback
    else if st.stretch then
      if p.width > 0 ∧ p.height > 0 then
        .thumb p.width p.height .none .force st.maxN
      else fallback
    else if p.width > 0 ∧ p.height > 0 then
      if p.smart then
        .thumb p.width p.height .attention .both st.maxN
      else if (p.vAlign = "top" ∧ p.hAlign = "") ∨
          (p.hAlign = "left" ∧ p.vAlign = "") then
        .thumb p.width p.height .low .both st.maxN
      else if (p.vAlign = "bottom" ∧ p.hAlign = "") ∨
          (p.hAlign = "right" ∧ p.vAlign = "") then
        .thumb p.width p.height .high .both st.maxN
      else if (p.vAlign = "" ∨ p.vAlign = "middle") ∧
          (p.hAlign = "" ∨ p.hAlign = "center") then
        .thumb p.width p.height .centre .both st.maxN
      else fallback
    else if p.width > 0 ∧ p.height = 0 then
      .thumb p.width v.maxHeight .none .both st.maxN
    else if p.height > 0 ∧ p.width = 0 then
      .thumb v.maxWidth p.height .none .both st.maxN
    else fallback
  else fallback

end VipsProcessor

namespace Imagor

/-! ### Concrete collaborators used as witnesses and counterexamples -/

/-- A one-byte blob. -/
def blobA : File := { bytes := [7], meta := none }

/-- A loader answering every key with a nil file and a nil error. -/
def emptyOkLoader : LoaderB := { load := fun _ => (none, none), isStore := false, id := 1 }

/-- A loader answering every key with `blobA` and a nil error, and whose
`loader.(Store)` assertion succeeds. -/
def fullOkLoader : LoaderB := { load := fun _ => (some blobA, none), isStore := true, id := 2 }

/-- A loader failing every key with `NotFound`. -/
def errLoader : LoaderB := { load := fun _ => (none, some .notFound), isStore := false, id := 3 }

/-- A loader answering every key with `blobA`, not a `Store`. -/
def okLoader : LoaderB := { load := fun _ => (some blobA, none), isStore := false, id := 1 }

/-- The fresh context of an incoming request. -/
def ctx0 : Ctx := { acquired := [], done := false }

/-- A degenerate signer. -/
def sgn0 : String → String → String := fun _ _ => ""

/-! ### Helper lemmas -/

/-- Every storage of the fan-out that is not identity-equal to the
origin contributes its `Save` call. -/
theorem mem_saveCalls (origin : Option Nat) (key : String) (file : Option File)
    (s : Nat) : ∀ storages : List Nat, s ∈ storages → some s ≠ origin →
    (⟨s, key, file⟩ : SaveCall) ∈ saveCalls origin key file storages := by
  intro storages hs hne
  induction storages with
  | nil => exact absurd hs (List.not_mem_nil s)
  | cons t rest ih =>
    rw [List.mem_cons] at hs
    unfold saveCalls
    by_cases ht : some t = origin
    · rw [if_pos ht]
      rcases hs with hs | hs
      · exact absurd (hs ▸ ht) hne
      · exact ih hs
    · rw [if_neg ht]
      rcases hs with hs | hs
      · exact hs ▸ List.mem_cons_self _ _
      · exact List.mem_cons_of_mem _ (ih hs)

/-- The number of `Save` calls the fan-out issues to sink `s`: none when
`s` is the origin, one per occurrence of `s` among the storages
otherwise. -/
theorem count_saveCalls (origin : Option Nat) (key : String) (file : Option File)
    (s : Nat) : ∀ storages : List Nat,
    (saveCalls origin key file storages).count ⟨s, key, file⟩ =
      if some s = origin then 0 else storages.count s := by
  intro storages
  induction storages with
  | nil => simp [saveCalls]
  | cons t rest ih =>
    unfold saveCalls
    by_cases ht : some t = origin
    · rw [if_pos ht, ih]
      by_cases hs : some s = origin
      · simp [hs]
      · have hts : t ≠ s := fun h => hs (h ▸ ht)
        simp [hs, List.count_cons, hts]
    · rw [if_neg ht]
      by_cases hs : some s = origin
      · have hts : ¬ (t = s) := fun h => ht (h ▸ hs)
        simp [List.count_cons, ih, hs, hts, SaveCall.mk.injEq]
      · by_cases hts : t = s
        · simp [List.count_cons, ih, hs, hts]
        · simp [List.count_cons, ih, hs, hts, SaveCall.mk.injEq]

/-- The processor loop records only `process` events. -/
theorem procLoop_events_process :
    ∀ (procs : List ProcB) (i : Nat) (file : Option File) (err : Option Err),
    ∀ e ∈ (procLoop procs i file err).2.2, ∃ j, e = Event.process j := by
  intro procs
  induction procs with
  | nil => intro i file err e he; simp [procLoop] at he
  | cons proc rest ih =>
    intro i file err e he
    unfold procLoop at he
    rcases hpe : proc file with ⟨f, eo⟩
    rw [hpe] at he
    match eo with
    | none => simp at he; exact ⟨i, he⟩
    | some .pass =>
      simp at he
      rcases he with he | he
      · exact ⟨i, he⟩
      · exact ih _ _ _ e he
    | some .deadlineExceeded => simp at he; exact ⟨i, he⟩
    | some .notFound => simp at he; rcases he with he | he; exact ⟨i, he⟩; exact ih _ _ _ e he
    | some .signatureMismatch => simp at he; rcases he with he | he; exact ⟨i, he⟩; exact ih _ _ _ e he
    | some .unsupportedFormat => simp at he; rcases he with he | he; exact ⟨i, he⟩; exact ih _ _ _ e he
    | some .timeout => simp at he; rcases he with he | he; exact ⟨i, he⟩; exact ih _ _ _ e he
    | some .internal => simp at he; rcases he with he | he; exact ⟨i, he⟩; exact ih _ _ _ e he
    | some .canceled => simp at he; rcases he with he | he; exact ⟨i, he⟩; exact ih _ _ _ e he

end Imagor

namespace Imagor

/-- C3: for every call to `Imagor.save` with `SaveTimeout` zero or
negative, the deferred `cancel()` invokes a nil function and the call
panics — after the storage writes have completed: every non-origin
storage still receives its `Save` call before the deferred call runs. -/
theorem save_nil_cancel_panics (saveTimeout : Int) (origin : Option Nat)
    (storages : List Nat) (key : String) (file : Option File)
    (h : saveTimeout ≤ 0) :
    (save saveTimeout origin storages key file).2 = true ∧
    ∀ s ∈ storages, some s ≠ origin →
      (⟨s, key, file⟩ : SaveCall) ∈ (save saveTimeout origin storages key file).1 := by
  constructor
  · have hn : ¬ (saveTimeout > 0) := not_lt.mpr h
    simp [save, hn]
  · intro s hs hne
    exact mem_saveCalls origin key file s storages hs hne

/-- Witness for `save_nil_cancel_panics`: with `SaveTimeout = 0`,
origin storage 2 and storages `[1, 2]`, the call panics after issuing
the save to storage 1. -/
theorem save_nil_cancel_panics_witness :
    (save 0 (some 2) [1, 2] "k" (some blobA)).2 = true ∧
    ∀ s ∈ [1, 2], some s ≠ some 2 →
      (⟨s, "k", some blobA⟩ : SaveCall) ∈ (save 0 (some 2) [1, 2] "k" (some blobA)).1 :=
  save_nil_cancel_panics 0 (some 2) [1, 2] "k" (some blobA) (by decide)

/-- C9: for every fan-out with a positive `SaveTimeout`, the call
returns without panicking, every sink identity-equal to the origin
receives zero `Save` calls, and every other sink receives exactly one
`Save` call with the blob per occurrence among the storages; the model
returns the complete list of writes (the fan-out joins its goroutines
with `wg.Wait` before returning) and exposes no error to the caller
(sink failures are only logged, imagor.go:321-325). -/
theorem save_fanout_skips_origin (saveTimeout : Int) (origin : Option Nat)
    (storages : List Nat) (key : String) (file : Option File) (s : Nat)
    (h : 0 < saveTimeout) :
    (save saveTimeout origin storages key file).2 = false ∧
    (save saveTimeout origin storages key file).1.count ⟨s, key, file⟩ =
      (if some s = origin then 0 else storages.count s) := by
  constructor
  · simp [save, h]
  · exact count_saveCalls origin key file s storages

/-- Witness for `save_fanout_skips_origin`: storages `[1, 2, 1]` with
origin 2: sink 1 is saved twice (it occurs twice), sink 2 never. -/
theorem save_fanout_skips_origin_witness :
    ((save 9 (some 2) [1, 2, 1] "k" (some blobA)).2 = false ∧
      (save 9 (some 2) [1, 2, 1] "k" (some blobA)).1.count ⟨2, "k", some blobA⟩ =
        (if some 2 = some 2 then 0 else [1, 2, 1].count 2)) ∧
    (save 9 (some 2) [1, 2, 1] "k" (some blobA)).1.count ⟨1, "k", some blobA⟩ =
      (if some 1 = some 2 then 0 else [1, 2, 1].count 1) :=
  ⟨save_fanout_skips_origin 9 (some 2) [1, 2, 1] "k" (some blobA) 2 (by decide),
   (save_fanout_skips_origin 9 (some 2) [1, 2, 1] "k" (some blobA) 1 (by decide)).2⟩

/-- C6: when the context already carries the acquired flag for the key,
`acquire` bypasses the single-flight group and invokes `fn` directly on
that context, so a nested re-acquisition of the same key never waits on
its own in-flight computation. -/
theorem acquire_reentrant_bypass (ctx : Ctx) (key : String)
    (fn : Ctx → StageOut) (h : ctxHolds ctx key = true) :
    acquire ctx key fn = fn ctx := by
  simp [acquire, h]

/-- A context already holding the key `img:k`. -/
def ctxHeld : Ctx := { acquired := ["img:k"], done := false }

/-- A constant single-flight closure. -/
def fnConst : Ctx → StageOut :=
  fun _ => { file := none, err := none, events := [], panicked := false }

/-- Witness for `acquire_reentrant_bypass`: a context holding `img:k`
re-acquiring `img:k` runs the closure directly. -/
theorem acquire_reentrant_bypass_witness :
    acquire ctxHeld "img:k" fnConst = fnConst ctxHeld :=
  acquire_reentrant_bypass ctxHeld "img:k" fnConst (by decide)

/-- C4: `Do` proceeds past authentication exactly when
`app.Unsafe && p.Unsafe` holds or `Sign(p.Path, secret) = p.Hash`;
otherwise it returns `SignatureMismatch` (HTTP 403) with an empty event
trace — no loader, storage or processor is invoked. -/
theorem do_auth_gate (app : App) (sgn : String → String → String)
    (ctx : Ctx) (p : Params) :
    (((app.allowUnsigned && p.unsigned) = true ∨ sgn p.path app.secret = p.hash) →
      Do app sgn ctx p =
        acquire ctx ("res:" ++ stripMeta p.path) (doResFn app p (stripMeta p.path))) ∧
    (¬((app.allowUnsigned && p.unsigned) = true ∨ sgn p.path app.secret = p.hash) →
      Do app sgn ctx p =
          { file := none, err := some .signatureMismatch, events := [], panicked := false } ∧
        errCode .signatureMismatch = 403) := by
  constructor
  · intro h
    unfold Do
    rw [if_neg]
    push_neg
    intro hfalse
    rcases h with h | h
    · rw [h] at hfalse; cases hfalse
    · exact h
  · intro h
    push_neg at h
    unfold Do
    rw [if_pos ⟨Bool.not_eq_true _ ▸ h.1, h.2⟩]
    exact ⟨rfl, rfl⟩

end Imagor

namespace Imagor

/-- C8: `Pass` never appears at the HTTP boundary.  The loader chain
rewrites a trailing `Pass` to `NotFound` (imagor.go:291-297); and were a
`Pass` error nonetheless to reach `ServeHTTP`, the response written for
it is exactly the response written for `NotFound` (imagor.go:140-144) —
in particular status 404 on the non-meta path. -/
theorem pass_never_surfaces :
    (∀ (loaders : List LoaderB) (key : String),
      (load loaders key).err ≠ some Err.pass) ∧
    (∀ (metaReq : Bool) (file : Option File),
      serveResponse metaReq file (some Err.pass) =
        serveResponse metaReq file (some Err.notFound)) ∧
    (∀ file : Option File, (serveResponse false file (some Err.pass)).status = 404) := by
  refine ⟨?_, ?_, ?_⟩
  · intro loaders key h
    have hrw : (load loaders key).err =
        (match (loadLoop key loaders none none).err with
          | some Err.pass => some Err.notFound
          | e => e) := rfl
    rw [hrw] at h
    revert h
    cases (loadLoop key loaders none none).err with
    | none => simp
    | some e => cases e <;> simp
  · intro metaReq file
    unfold serveResponse
    by_cases hc : IsFileEmpty file = false ∧ fileMeta file ≠ none ∧ metaReq = true
    · rw [if_pos hc, if_pos hc]
    · rw [if_neg hc, if_neg hc]
      simp [wrapError]
  · intro file
    unfold serveResponse
    have hc : ¬(IsFileEmpty file = false ∧ fileMeta file ≠ none ∧ false = true) := by
      simp
    rw [if_neg hc]
    by_cases hln : 0 < (if IsFileEmpty file = true then 0 else fileLen file) <;>
      simp [wrapError, errCode, hln]

/-- C7 counterexample: with loaders `[emptyOkLoader, fullOkLoader]`,
the only loader returning a non-empty blob with a nil error is loader 2,
yet the chain stops at loader 1 — which returned a nil blob with a nil
error — so loader 2 is never attempted, the returned file is nil and no
origin is reported.  The first loader returning a non-empty blob with no
error is not the winner. -/
theorem load_winner_counterexample :
    (fullOkLoader.load "k" = (some blobA, none) ∧
      IsFileEmpty (some blobA) = false) ∧
    (load [emptyOkLoader, fullOkLoader] "k").file = none ∧
    (load [emptyOkLoader, fullOkLoader] "k").origin = none ∧
    (load [emptyOkLoader, fullOkLoader] "k").events = [.load 1 "k"] := by
  decide

/-- The loader loop stops at the first loader whose error is nil: when
every earlier loader errored and that loader returns a non-empty blob,
the loop returns that blob, that loader as origin, a nil error, and the
attempts in order up to the winner. -/
theorem loadLoop_first_nil (key : String) (l : LoaderB) (post : List LoaderB)
    (f : File) (hl : l.load key = (some f, none))
    (hf : IsFileEmpty (some f) = false) :
    ∀ pre : List LoaderB, (∀ l' ∈ pre, (l'.load key).2 ≠ none) →
    ∀ (file : Option File) (err : Option Err),
    loadLoop key (pre ++ l :: post) file err =
      ⟨some f, if l.isStore then some l.id else none, none,
        pre.map (fun l' => .load l'.id key) ++ [.load l.id key]⟩ := by
  intro pre
  induction pre with
  | nil =>
    intro _ file err
    simp only [List.nil_append, List.map_nil]
    unfold loadLoop
    rw [hl]
    simp [hf]
  | cons l' rest ih =>
    intro hpre file err
    have h2 := hpre l' (List.mem_cons_self _ _)
    simp only [List.cons_append, List.map_cons]
    have ih' := ih (fun x hx => hpre x (List.mem_cons_of_mem _ hx))
    unfold loadLoop
    rcases he : l'.load key with ⟨f', e'⟩
    rw [he] at h2
    cases e' with
    | none => exact absurd rfl h2
    | some e'' =>
      dsimp only
      rw [ih']

/-- C7 amended: `Imagor.load` attempts the loaders in order, and the
iteration terminates at the first loader returning a nil error, whatever
its blob.  When every earlier loader returned an error and the
terminating loader returns a non-empty blob, that loader is the winner:
its blob is the result and it is reported as the origin Store exactly
when its `loader.(Store)` assertion succeeds. -/
theorem load_first_nil_error_wins (pre post : List LoaderB) (l : LoaderB)
    (key : String) (f : File)
    (hpre : ∀ l' ∈ pre, (l'.load key).2 ≠ none)
    (hl : l.load key = (some f, none))
    (hf : IsFileEmpty (some f) = false) :
    (load (pre ++ l :: post) key).file = some f ∧
    (load (pre ++ l :: post) key).err = none ∧
    (load (pre ++ l :: post) key).origin =
      (if l.isStore then some l.id else none) ∧
    (load (pre ++ l :: post) key).events =
      pre.map (fun l' => .load l'.id key) ++ [.load l.id key] := by
  unfold load
  rw [loadLoop_first_nil key l post f hl hf pre hpre none none]
  exact ⟨rfl, rfl, rfl, rfl⟩

/-- Witness for `load_first_nil_error_wins`: after `errLoader` fails,
`fullOkLoader` returns `blobA` with no error and wins as origin. -/
theorem load_first_nil_error_wins_witness :
    (load [errLoader, fullOkLoader] "k").file = some blobA ∧
    (load [errLoader, fullOkLoader] "k").err = none ∧
    (load [errLoader, fullOkLoader] "k").origin =
      (if fullOkLoader.isStore then some fullOkLoader.id else none) ∧
    (load [errLoader, fullOkLoader] "k").events =
      [errLoader].map (fun l' => .load l'.id "k") ++ [.load fullOkLoader.id "k"] :=
  load_first_nil_error_wins [errLoader] [] fullOkLoader "k" blobA
    (by decide) (by decide) (by decide)

end Imagor

namespace Imagor

/-- An app with one source loader, no processors, and result storage 7. -/
def appC1 : App :=
  { allowUnsigned := true, secret := "", loaders := [okLoader], storages := []
    resultLoaders := [], resultStorages := [7], processors := [], saveTimeout := 1 }

/-- An unsigned-mode request for path `x`, image `img`. -/
def pC1 : Params := { Params.default with path := "x", image := "img", unsigned := true }

/-- C1 counterexample: `appC1` has no processors at all, so no processor
succeeded, yet `Do` issues a save of the loaded blob to result storage 7
— the fan-out is guarded only by the folded error being nil, which it is
after a successful load even when no processor ran. -/
theorem result_save_no_processor_counterexample :
    appC1.processors.length = 0 ∧
    (Do appC1 sgn0 ctx0 pC1).err = none ∧
    (Do appC1 sgn0 ctx0 pC1).events =
      [.load 1 "img", .save 7 "x" (some blobA)] := by
  decide

/-- C1 amended: the result-storage fan-out of `Do` runs iff the error
folded by the processor loop is nil and result storages are configured —
the guard does not require that any processor succeeded (it holds when
none are configured, or when all returned `Pass` after a successful
load) nor that the final blob is non-empty. -/
theorem result_save_condition (app : App) (rk : String) (file0 : Option File) :
    (∃ e ∈ (processAndStore app rk file0).events, ∃ s k f, e = Event.save s k f) ↔
      ((procLoop app.processors 0 file0 none).2.1 = none ∧
        app.resultStorages ≠ []) := by
  constructor
  · rintro ⟨e, he, s, k, f, rfl⟩
    unfold processAndStore at he
    by_cases hc : (procLoop app.processors 0 file0 none).2.1 = none ∧
        app.resultStorages.length > 0
    · exact ⟨hc.1, List.ne_nil_of_length_pos hc.2⟩
    · rw [if_neg hc] at he
      obtain ⟨j, hj⟩ := procLoop_events_process app.processors 0 file0 none _ he
      cases hj
  · rintro ⟨herr, hne⟩
    have hlen : app.resultStorages.length > 0 := List.length_pos.mpr hne
    unfold processAndStore
    rw [if_pos ⟨herr, hlen⟩]
    rcases hrs : app.resultStorages with _ | ⟨s, rest⟩
    · exact absurd hrs hne
    · refine ⟨Event.save s rk (procLoop app.processors 0 file0 none).1,
        List.mem_append_right _ ?_, s, _, _, rfl⟩
      unfold save saveCalls
      simp

/-- An app whose only source loader answers with a nil file and nil
error. -/
def appC2 : App :=
  { allowUnsigned := true, secret := "", loaders := [emptyOkLoader], storages := []
    resultLoaders := [], resultStorages := [], processors := [], saveTimeout := 1 }

/-- C2 counterexample: the source load completes without error but
yields an empty blob; `Do` returns that empty result with a nil error,
and the response written for it is a 200 with an empty body — not the
404 the claim states. -/
theorem empty_load_counterexample :
    (Do appC2 sgn0 ctx0 pC1).err = none ∧
    IsFileEmpty (Do appC2 sgn0 ctx0 pC1).file = true ∧
    (Do appC2 sgn0 ctx0 pC1).events = [.load 1 "img"] ∧
    serveResponse false (Do appC2 sgn0 ctx0 pC1).file (Do appC2 sgn0 ctx0 pC1).err =
      { status := 200, bodyLen := 0, isJson := false } := by
  decide

/-- C2 amended: when the result-loader chain misses and the source load
completes without error, panic, or bytes, `Do`'s closure returns the
empty file with a nil error, and `ServeHTTP` surfaces it as a 200 with
an empty body (`Content-Length: 0`), not as NotFound. -/
theorem empty_load_serves_200 (app : App) (p : Params) (rk : String) (ctx : Ctx)
    (metaReq : Bool) (f : Option File) (evs : List Event)
    (hmiss : ¬((loadResult app rk).2.1 = none ∧
      IsFileEmpty (loadResult app rk).1 = false))
    (hload : loadStore app ctx p.image = ⟨f, none, evs, false⟩)
    (hempty : IsFileEmpty f = true) :
    (doResFn app p rk ctx).file = f ∧
    (doResFn app p rk ctx).err = none ∧
    serveResponse metaReq f none = { status := 200, bodyLen := 0, isJson := false } := by
  have h1 : doResFn app p rk ctx =
      { file := f, err := none, events := (loadResult app rk).2.2 ++ evs
        panicked := false } := by
    unfold doResFn
    rw [if_neg hmiss, hload]
    simp [hempty]
  rw [h1]
  refine ⟨rfl, rfl, ?_⟩
  unfold serveResponse
  rw [if_neg (by simp [hempty])]
  simp [hempty]

/-- Witness for `empty_load_serves_200` at `appC2`. -/
theorem empty_load_serves_200_witness :
    (doResFn appC2 pC1 "x" ctx0).file = none ∧
    (doResFn appC2 pC1 "x" ctx0).err = none ∧
    serveResponse false none none = { status := 200, bodyLen := 0, isJson := false } :=
  empty_load_serves_200 appC2 pC1 "x" ctx0 false none [Event.load 1 "img"]
    (by decide) (by decide) (by decide)

end Imagor

namespace VipsProcessor

open Imagor

/-- A 100×100 request aligned top-left: both `vAlign` and `hAlign` set. -/
def pTopLeft : Params :=
  { Params.default with width := 100, height := 100, vAlign := "top", hAlign := "left" }

/-- C10 counterexample: `pTopLeft` lies in the claim's class (w>0, h>0,
not special, zero crop insets, no fit-in, no stretch) and is aligned
top/left, so the claim prescribes a thumbnail with interest Low and size
Both; but the code's guards require the orthogonal alignment to be empty
(`VAlign==top && HAlign==""` or `HAlign==left && VAlign==""`,
vips.go:294-299), so with both set no interest matches, the `thumbnail`
flag stays false and the engine falls through to the bounding
`MaxWidth×MaxHeight` size-down thumbnail. -/
theorem alignment_counterexample :
    pTopLeft.width > 0 ∧ pTopLeft.height > 0 ∧ pTopLeft.fitIn = false ∧
    pTopLeft.stretch = false ∧ pTopLeft.trim = false ∧
    pTopLeft.cropTop = 0 ∧ pTopLeft.cropLeft = 0 ∧
    pTopLeft.cropBottom = 0 ∧ pTopLeft.cropRight = 0 ∧
    (scannedState VipsCfg.default pTopLeft).special = false ∧
    processStrategy VipsCfg.default pTopLeft =
      .thumb 9999 9999 .none .down (-1) ∧
    processStrategy VipsCfg.default pTopLeft ≠
      .thumb 100 100 .low .both (-1) := by
  decide

/-- C10 amended: in the claim's class the engine selects a `size=Both`
thumbnail with interest Attention for `smart`, Low only for top with
empty h-alignment or left with empty v-alignment, High only for bottom
with empty h-alignment or right with empty v-alignment, Centre for
middle/center/unset on both axes — and for any other alignment
combination no interest matches and the engine falls through to the
bounding `MaxWidth×MaxHeight` size-down thumbnail. -/
theorem alignment_strategy (v : VipsCfg) (p : Params)
    (hsp : (scannedState v p).special = false)
    (hst : (scannedState v p).stretch = false)
    (hfit : p.fitIn = false)
    (hcb : p.cropBottom = 0) (hct : p.cropTop = 0)
    (hcl : p.cropLeft = 0) (hcr : p.cropRight = 0)
    (hw : p.width > 0) (hh : p.height > 0) :
    processStrategy v p =
      (if p.smart then
        Strategy.thumb p.width p.height .attention .both (scannedState v p).maxN
      else if (p.vAlign = "top" ∧ p.hAlign = "") ∨
          (p.hAlign = "left" ∧ p.vAlign = "") then
        Strategy.thumb p.width p.height .low .both (scannedState v p).maxN
      else if (p.vAlign = "bottom" ∧ p.hAlign = "") ∨
          (p.hAlign = "right" ∧ p.vAlign = "") then
        Strategy.thumb p.width p.height .high .both (scannedState v p).maxN
      else if (p.vAlign = "" ∨ p.vAlign = "middle") ∧
          (p.hAlign = "" ∨ p.hAlign = "center") then
        Strategy.thumb p.width p.height .centre .both (scannedState v p).maxN
      else
        Strategy.thumb v.maxWidth v.maxHeight .none .down (scannedState v p).maxN) := by
  unfold processStrategy
  rw [if_pos ⟨hsp, hcb, hct, hcl, hcr⟩]
  rw [hfit]
  simp only [Bool.false_eq_true, if_false, hst]
  rw [if_pos ⟨hw, hh⟩, hsp]
  simp

/-- Witness for `alignment_strategy`: a 100×100 smart request selects
the Attention/Both thumbnail. -/
theorem alignment_strategy_witness :
    processStrategy VipsCfg.default
        { Params.default with width := 100, height := 100, smart := true } =
      (if ({ Params.default with width := 100, height := 100, smart := true } : Params).smart then
        Strategy.thumb 100 100 .attention .both
          (scannedState VipsCfg.default
            { Params.default with width := 100, height := 100, smart := true }).maxN
      else if ((("" : String) = "top") ∧ (("" : String) = "")) ∨
          ((("" : String) = "left") ∧ (("" : String) = "")) then
        Strategy.thumb 100 100 .low .both
          (scannedState VipsCfg.default
            { Params.default with width := 100, height := 100, smart := true }).maxN
      else if ((("" : String) = "bottom") ∧ (("" : String) = "")) ∨
          ((("" : String) = "right") ∧ (("" : String) = "")) then
        Strategy.thumb 100 100 .high .both
          (scannedState VipsCfg.default
            { Params.default with width := 100, height := 100, smart := true }).maxN
      else if ((("" : String) = "") ∨ (("" : String) = "middle")) ∧
          ((("" : String) = "") ∨ (("" : String) = "center")) then
        Strategy.thumb 100 100 .centre .both
          (scannedState VipsCfg.default
            { Params.default with width := 100, height := 100, smart := true }).maxN
      else
        Strategy.thumb 9999 9999 .none .down
          (scannedState VipsCfg.default
            { Params.default with width := 100, height := 100, smart := true }).maxN) :=
  alignment_strategy VipsCfg.default
    { Params.default with width := 100, height := 100, smart := true }
    (by decide) (by decide) (by decide) (by decide) (by decide)
    (by decide) (by decide) (by decide) (by decide)

end VipsProcessor
